import Mathlib

/-!
# Verification of the JellyLink media organizer

A shallow embedding of `src/jellylink.py` (with `src/jelly.py` where the
claims reference it): the filename classification cascade (`detect_tv`,
`detect_movie`, `sanitize_for_matching`, `clean_title`,
`normalize_tv_title`), quality detection (`get_resolution`), the placement
engine (`create_hardlink`, `process_tv`, `process_movie`, `process_file`)
over an abstract filesystem and audit-log state, and the polling main loop.

Modelling conventions:
* Python strings are `String`/`List Char`; regular expressions are
  hand-compiled into deterministic matching functions that reproduce the
  backtracking order of Python's `re` engine for the concrete patterns in
  the source (lazy `.*?` = smallest split point first, greedy `\d{1,2}` =
  two digits before one, alternation left to right).
* Character classes (`\d`, `\w`, `\s`, case folding) are modelled on their
  ASCII meaning, which is exact for the byte-oriented filenames the
  program manipulates.
* The filesystem is a map from paths to files carrying a device id, an
  inode and an abstract content; `os.link` / `shutil.copy2` / `os.replace`
  / `os.remove` are micro-operations on that map.  Clock, globbing and the
  success of a copy are environment parameters.
* `DRY_RUN` is `false` (the placement claims are about real placement);
  logging and WhatsApp notification are external sinks and not modelled.
-/

namespace JellyLink

/-! ## Character classes and basic string helpers -/

/-- ASCII decimal digit, the model of the regex class `\d`. -/
def isDig (c : Char) : Bool := decide (48 ≤ c.toNat) && decide (c.toNat ≤ 57)

/-- Numeric value of a digit character. -/
def digitVal (c : Char) : Nat := c.toNat - 48

/-- Python whitespace (`\s`, `str.strip`, `str.isspace`), ASCII part. -/
def pySpace (c : Char) : Bool :=
  c = ' ' || c = '\t' || c = '\n' || c = '\r' || c = '\x0b' || c = '\x0c'

/-- Word character for `\b` boundaries (`\w`), ASCII part. -/
def wordChar (c : Char) : Bool := c.isAlpha || isDig c || c = '_'

/-- `str.lower`, per character. -/
def lowerL (l : List Char) : List Char := l.map Char.toLower

/-- Does `hay` start with `pat`? -/
def startsWithL (pat : List Char) : List Char → Bool :=
  fun hay =>
    match pat, hay with
    | [], _ => true
    | _ :: _, [] => false
    | p :: ps, h :: hs => p = h && startsWithL ps hs

/-- Python `needle in hay` substring test. -/
def containsL (needle : List Char) : List Char → Bool
  | [] => startsWithL needle []
  | h :: hs => startsWithL needle (h :: hs) || containsL needle hs

/-- Python `str.endswith`. -/
def endsWithL (suf l : List Char) : Bool := startsWithL suf.reverse l.reverse

/-- Replace every maximal run of characters satisfying `p` by a single
space: the effect of `re.sub(r"[...]+", " ", s)` for a class `p`. -/
def subRuns (p : Char → Bool) : Bool → List Char → List Char
  | _, [] => []
  | inRun, c :: cs =>
    if p c then
      if inRun then subRuns p true cs else ' ' :: subRuns p true cs
    else c :: subRuns p false cs

/-- Python `str.strip()`: drop leading and trailing whitespace. -/
def pyStripL (l : List Char) : List Char :=
  ((l.dropWhile pySpace).reverse.dropWhile pySpace).reverse

/-- `pathlib` name: the component after the last `/`. -/
def pyNameL (l : List Char) : List Char :=
  (l.reverse.takeWhile (fun c => c ≠ '/')).reverse

/-- `Path(p).name` as a string. -/
def pyName (s : String) : String := ⟨pyNameL s.data⟩

/-- `Path(p).suffix`: `name[i:]` for the last dot index `i` with
`0 < i < len(name) - 1`, else the empty string (CPython's rule). -/
def pySuffixL (name : List Char) : List Char :=
  let r := name.reverse
  let pre := r.takeWhile (fun c => c ≠ '.')
  match r.dropWhile (fun c => c ≠ '.') with
  | [] => []
  | _ :: rs => if pre.isEmpty || rs.isEmpty then [] else '.' :: pre.reverse

/-- `Path(p).suffix` as a string. -/
def pySuffix (s : String) : String := ⟨pySuffixL (pyNameL s.data)⟩

/-- `Path(p).stem`: the name with `pySuffix` removed. -/
def pyStemL (name : List Char) : List Char :=
  let r := name.reverse
  let pre := r.takeWhile (fun c => c ≠ '.')
  match r.dropWhile (fun c => c ≠ '.') with
  | [] => name
  | _ :: rs => if pre.isEmpty || rs.isEmpty then name else rs.reverse

/-- `Path(p).stem` as a string. -/
def pyStem (s : String) : String := ⟨pyStemL (pyNameL s.data)⟩

/-- Python `title.replace(' ', '.')`. -/
def replaceSpaceDot (s : String) : String :=
  ⟨s.data.map (fun c => if c = ' ' then '.' else c)⟩

/-- Python `f"{n:02d}"`. -/
def pad2 (n : Nat) : String := if n < 10 then "0" ++ toString n else toString n

/-! ## `COMMON_TAGS_RE` (jellylink.py line 328, jelly.py line 319)

`\b(?:2160p|1080p|...|8bit)\b` with `re.I`, applied by `.sub('', s)`.
An alternative matcher consumes characters case-insensitively and returns
the reversed consumed characters together with the remainder; the trailing
`\b` is checked on the remainder (every alternative both starts and ends
with a word character, so the boundary checks reduce to the neighbouring
characters not being word characters). -/

/-- One alternative of the tag alternation: given the reversed characters
consumed so far and the remaining input, consume more or fail. -/
def TagAlt : Type := List Char → List Char → Option (List Char × List Char)

/-- Match a literal (given in lowercase) case-insensitively. -/
def mLit (pat : List Char) : TagAlt :=
  fun acc rest =>
    match pat, rest with
    | [], _ => some (acc, rest)
    | _ :: _, [] => none
    | p :: ps, c :: cs => if c.toLower = p then mLit ps (c :: acc) cs else none

/-- Sequencing of two alternative fragments. -/
def tagSeq (a b : TagAlt) : TagAlt :=
  fun acc rest =>
    match a acc rest with
    | some (acc2, rest2) => b acc2 rest2
    | none => none

/-- A greedy optional character from class `cls` followed by `b`
(`[-_. ]?` and `\.?` in the source pattern). -/
def tagOpt (cls : Char → Bool) (b : TagAlt) : TagAlt :=
  fun acc rest =>
    match rest with
    | [] => b acc rest
    | c :: cs =>
      if cls c then
        match b (c :: acc) cs with
        | some r => some r
        | none => b acc rest
      else b acc rest

/-- The separator class `[-_. ]` inside `web[-_. ]?dl` / `web[-_. ]?rip`. -/
def tagSepCls (c : Char) : Bool := c = '-' || c = '_' || c = '.' || c = ' '

/-- The alternatives of `COMMON_TAGS_RE`, in source order. -/
def tagAlts : List TagAlt :=
  [ mLit "2160p".data, mLit "1080p".data, mLit "720p".data, mLit "480p".data
  , mLit "2160".data, mLit "1080".data, mLit "720".data, mLit "4k".data
  , mLit "uhd".data
  , tagSeq (mLit "web".data) (tagOpt tagSepCls (mLit "dl".data))
  , tagSeq (mLit "web".data) (tagOpt tagSepCls (mLit "rip".data))
  , mLit "webrip".data, mLit "web".data, mLit "hdr".data, mLit "hevc".data
  , tagSeq (mLit "h".data) (tagOpt (fun c => c = '.') (mLit "265".data))
  , tagSeq (mLit "h".data) (tagOpt (fun c => c = '.') (mLit "264".data))
  , mLit "x264".data, mLit "x265".data, mLit "ddp5.1".data, mLit "ddp5".data
  , mLit "aac".data, mLit "mp3".data, mLit "amzn".data, mLit "pmtp".data
  , mLit "pm_tp".data, mLit "nf".data, mLit "hdr10".data, mLit "10bit".data
  , mLit "8bit".data ]

/-- Word boundary after a match (the last consumed character is always a
word character): the next character is absent or not a word character. -/
def boundaryAfter : List Char → Bool
  | [] => true
  | c :: _ => !wordChar c

/-- Try the alternation at the current position: first alternative that
matches and is followed by a word boundary wins (the engine backtracks
across `|` when the trailing `\b` fails). -/
def tryTagHere (rest : List Char) : List (TagAlt) → Option (List Char × List Char)
  | [] => none
  | a :: as =>
    match a [] rest with
    | some (accRev, rest2) =>
      if boundaryAfter rest2 then some (accRev, rest2) else tryTagHere rest as
    | none => tryTagHere rest as

/-- `COMMON_TAGS_RE.sub('', s)`, fuelled scan.  `prevWord` says whether the
character before the current position is a word character; every
alternative starts with a word character, so a match is only possible when
`prevWord` is false (that is the leading `\b`).  Every match consumes at
least one character, so `length + 1` fuel always suffices. -/
def stripTagsGo : Nat → Bool → List Char → List Char
  | 0, _, l => l
  | _ + 1, _, [] => []
  | fuel + 1, prevWord, c :: cs =>
    if prevWord then c :: stripTagsGo fuel (wordChar c) cs
    else
      match tryTagHere (c :: cs) tagAlts with
      | some (accRev, rest) =>
        stripTagsGo fuel (match accRev with | d :: _ => wordChar d | [] => prevWord) rest
      | none => c :: stripTagsGo fuel (wordChar c) cs

/-- `COMMON_TAGS_RE.sub('', s)`. -/
def stripTags (l : List Char) : List Char := stripTagsGo (l.length + 1) false l

/-! ## Classification helpers (jellylink.py lines 189-203, 324-340) -/

/-- The class `[\._\-]` of `sanitize_for_matching`'s first substitution. -/
def sepCls (c : Char) : Bool := c = '.' || c = '_' || c = '-'

/-- `sanitize_for_matching` (lines 333-340): separators to spaces, strip
common tags, collapse whitespace, strip. -/
def sanitize_for_matching (name : String) : String :=
  ⟨pyStripL (subRuns pySpace false (stripTags (subRuns sepCls false name.data)))⟩

/-- The class `[._()]` of `clean_title`. -/
def cleanCls (c : Char) : Bool := c = '.' || c = '_' || c = '(' || c = ')'

/-- `clean_title` (lines 189-192). -/
def clean_title (name : String) : String :=
  ⟨pyStripL (subRuns pySpace false (subRuns cleanCls false name.data))⟩

/-- `normalize_tv_title` (lines 194-203):
`re.sub(r'\s+(19\d{2}|20\d{2})$', '', title).strip()` — drop one trailing
4-digit year together with the whitespace run before it, then strip. -/
def normalize_tv_title (title : String) : String :=
  match title.data.reverse with
  | d2 :: d1 :: y2 :: y1 :: c :: rest =>
    if isDig d2 && isDig d1 &&
        ((y1 = '1' && y2 = '9') || (y1 = '2' && y2 = '0')) && pySpace c then
      ⟨pyStripL (((c :: rest).dropWhile pySpace).reverse)⟩
    else ⟨pyStripL title.data⟩
  | _ => ⟨pyStripL title.data⟩

/-! ## `year_pattern` and `detect_movie` (lines 325, 385-405) -/

/-- Does `(19\d{2}|20\d{2})` match at this position?  Returns the value. -/
def matchYearAt : List Char → Option Nat
  | c1 :: c2 :: c3 :: c4 :: _ =>
    if ((c1 = '1' && c2 = '9') || (c1 = '2' && c2 = '0')) && isDig c3 && isDig c4 then
      some (1000 * digitVal c1 + 100 * digitVal c2 + 10 * digitVal c3 + digitVal c4)
    else none
  | _ => none

/-- `year_pattern.search`: leftmost match; returns the characters before
the match (`clean_base[:m.start()]`) and the matched value. -/
def yearSearch : List Char → Option (List Char × Nat)
  | [] => none
  | c :: cs =>
    match matchYearAt (c :: cs) with
    | some y => some ([], y)
    | none =>
      match yearSearch cs with
      | some (pre, y) => some (c :: pre, y)
      | none => none

/-- `detect_movie` (lines 385-405).  `currentYear` models
`datetime.datetime.now().year`; the matched year is accepted only when
`1900 <= year <= current_year + 1`, in which case the title is everything
before the match. -/
def detect_movie (currentYear : Nat) (filename : String) : Option (String × Option Nat) :=
  let clean_base := sanitize_for_matching (pyStem filename)
  let ty : List Char × Option Nat :=
    match yearSearch clean_base.data with
    | none => (clean_base.data, none)
    | some (pre, y) =>
      if 1900 ≤ y ∧ y ≤ currentYear + 1 then (pre, some y) else (clean_base.data, none)
  let title := clean_title ⟨ty.1⟩
  if title = "" then none else some (title, ty.2)

/-! ## `detect_tv` (jellylink.py lines 342-383)

Each of the five `^`-anchored patterns is compiled to a function
`tryAt : List Char → Option (Nat × Nat)` giving season and episode when
the part after the lazy `(?P<title>.*?)` matches at a given split point,
and a driver that tries split points left to right (the lazy-star
semantics; `.` does not match a newline, and `^` without `re.MULTILINE`
pins the search to the start of the string). -/

/-- `\d{1,2}` with continuation `k`: greedy, two digits before one. -/
def parse12 (k : Nat → List Char → Option (Nat × Nat)) : List Char → Option (Nat × Nat)
  | [] => none
  | [c1] => if isDig c1 then k (digitVal c1) [] else none
  | c1 :: c2 :: rs =>
    if isDig c1 then
      if isDig c2 then
        match k (10 * digitVal c1 + digitVal c2) rs with
        | some r => some r
        | none => k (digitVal c1) (c2 :: rs)
      else k (digitVal c1) (c2 :: rs)
    else none

/-- `[ ]*` (greedy; deterministic because what follows never matches a
space). -/
def dropSpaces (l : List Char) : List Char := l.dropWhile (fun c => c = ' ')

/-- `S(?P<season>\d{1,2})[ ]*E(?P<episode>\d{1,2})`, case-insensitive. -/
def seTail : List Char → Option (Nat × Nat)
  | [] => none
  | c :: rs =>
    if c.toLower = 's' then
      parse12 (fun s r2 =>
        match dropSpaces r2 with
        | [] => none
        | e :: r3 =>
          if e.toLower = 'e' then parse12 (fun ep _ => some (s, ep)) r3 else none) rs
    else none

/-- Pattern 1 (line 351): `[ ]+S\d{1,2}[ ]*E\d{1,2}` after the title. -/
def tryP1 (rest : List Char) : Option (Nat × Nat) :=
  match rest with
  | ' ' :: _ => seTail (dropSpaces rest)
  | _ => none

/-- Pattern 2 (line 352): `[ ]*S\d{1,2}[ ]*E\d{1,2}` after the title. -/
def tryP2 (rest : List Char) : Option (Nat × Nat) := seTail (dropSpaces rest)

/-- Pattern 3 (line 354): `[ ]+(?P<season>\d{1,2})x(?P<episode>\d{1,2})`. -/
def tryP3 (rest : List Char) : Option (Nat × Nat) :=
  match rest with
  | ' ' :: _ =>
    parse12 (fun s r2 =>
      match r2 with
      | [] => none
      | c :: r3 => if c.toLower = 'x' then parse12 (fun e _ => some (s, e)) r3 else none)
      (dropSpaces rest)
  | _ => none

/-- The separator class `[ \-\._]` of pattern 4. -/
def sep4 (c : Char) : Bool := c = ' ' || c = '-' || c = '.' || c = '_'

/-- `(?P<season>\d)(?P<episode>\d{2})(?!\d)` of pattern 4. -/
def threeDigits : List Char → Option (Nat × Nat)
  | a :: b :: c :: rs =>
    if isDig a && isDig b && isDig c &&
        (match rs with | [] => true | d :: _ => !isDig d) then
      some (digitVal a, 10 * digitVal b + digitVal c)
    else none
  | _ => none

/-- Pattern 4 (line 357): `(?:[ \-\._]+|season[ \-\._]+)\d\d{2}(?!\d)`;
the two alternatives are tried in source order. -/
def tryP4 (rest : List Char) : Option (Nat × Nat) :=
  let alt1 :=
    match rest with
    | c :: _ => if sep4 c then threeDigits (rest.dropWhile sep4) else none
    | [] => none
  match alt1 with
  | some r => some r
  | none =>
    match mLit "season".data [] rest with
    | some (_, r2) =>
      match r2 with
      | c :: _ => if sep4 c then threeDigits (r2.dropWhile sep4) else none
      | [] => none
    | none => none

/-- Pattern 5 (line 359):
`[ ]*S\d{1,2}[ ]*E(?P<episode>\d{1,2})(?:[ \-]*E?(?P<episode2>\d{1,2}))` —
like pattern 2 but demanding a second episode-like number; the
`episode2` value is never used by the source. -/
def tryP5 (rest : List Char) : Option (Nat × Nat) :=
  match dropSpaces rest with
  | [] => none
  | c :: rs =>
    if c.toLower = 's' then
      parse12 (fun s r2 =>
        match dropSpaces r2 with
        | [] => none
        | e :: r3 =>
          if e.toLower = 'e' then
            parse12 (fun ep r4 =>
              match r4.dropWhile (fun c => c = ' ' || c = '-') with
              | [] => none
              | d :: r6 =>
                if isDig d then some (s, ep)
                else if d.toLower = 'e' then
                  match r6 with
                  | d2 :: _ => if isDig d2 then some (s, ep) else none
                  | [] => none
                else none) r3
          else none) rs
    else none

/-- The lazy `^(?P<title>.*?)` driver: try split points left to right;
the title may not contain a newline (`.`). -/
def reSearch (tryAt : List Char → Option (Nat × Nat)) :
    List Char → List Char → Option (List Char × Nat × Nat)
  | rest, tacc =>
    match tryAt rest with
    | some (s, e) => some (tacc.reverse, s, e)
    | none =>
      match rest with
      | [] => none
      | c :: rs => if c = '\n' then none else reSearch tryAt rs (c :: tacc)

/-- Run one compiled pattern against the sanitized base name. -/
def runPat (tryAt : List Char → Option (Nat × Nat)) (cb : List Char) :
    Option (String × Nat × Nat) :=
  match reSearch tryAt cb [] with
  | some (t, s, e) => some (⟨t⟩, s, e)
  | none => none

/-- Lines 367-381 of the pattern loop: season/episode always parse for
these patterns; clean the title (and drop a trailing year); an empty
title rejects the match and the loop continues with the next pattern. -/
def tvAccept : Option (String × Nat × Nat) → Option (String × Nat × Nat)
  | none => none
  | some (raw, s, e) =>
    let title := normalize_tv_title (clean_title raw)
    if title = "" then none else some (title, s, e)

/-- First accepted result, in pattern order (the `for p in patterns`
loop with `continue`). -/
def firstSome : List (Option (String × Nat × Nat)) → Option (String × Nat × Nat)
  | [] => none
  | some a :: _ => some a
  | none :: os => firstSome os

/-- `detect_tv` (lines 342-383). -/
def detect_tv (filename : String) : Option (String × Nat × Nat) :=
  let cb := (sanitize_for_matching (pyStem filename)).data
  firstSome
    [ tvAccept (runPat tryP1 cb), tvAccept (runPat tryP2 cb)
    , tvAccept (runPat tryP3 cb), tvAccept (runPat tryP4 cb)
    , tvAccept (runPat tryP5 cb) ]

/-! ## `get_resolution` (lines 411-427) -/

/-- Resolution score extracted from a filename. -/
def get_resolution (filename : String) : Nat :=
  let fl := lowerL filename.data
  if containsL "2160p".data fl || containsL "4k".data fl || containsL "uhd".data fl then 2160
  else if containsL "1080p".data fl then 1080
  else if containsL "720p".data fl then 720
  else if containsL "480p".data fl then 480
  else 0

/-! ## Filesystem model and `create_hardlink` (lines 150-187; identical in
jelly.py lines 147-159 for the pre-check and 161-184 for the link/copy) -/

/-- A file: device id and inode (`st_dev`/`st_ino`) plus abstract content. -/
structure MFile where
  dev : Nat
  ino : Nat
  content : Nat
deriving DecidableEq, Repr

/-- The filesystem: a path-indexed map of files, and the device that a new
entry created at a path would live on (the mount table). -/
structure FS where
  files : String → Option MFile
  devOf : String → Nat

/-- Point update of the file map. -/
def fsSet (fs : FS) (p : String) (v : Option MFile) : FS :=
  { fs with files := fun q => if q = p then v else fs.files q }

/-- Errors of the modelled OS calls. -/
inductive OsErr where
  | enoent
  | eexist
  | exdev
deriving DecidableEq, Repr

/-- `os.link(src, dst)`: fails with `ENOENT` when the source is missing,
`EEXIST` when the destination exists, `EXDEV` across devices; on success
the destination is the same inode as the source. -/
def os_link (fs : FS) (src dst : String) : Except OsErr FS :=
  match fs.files src with
  | none => .error .enoent
  | some f =>
    match fs.files dst with
    | some _ => .error .eexist
    | none =>
      if f.dev = fs.devOf dst then .ok (fsSet fs dst (some f))
      else .error .exdev

/-- `shutil.copy2(src, tmp)`: a full copy with a fresh inode on the
destination device; `copyFails` is the environment's verdict on whether
the copy raises. -/
def shutil_copy2 (copyFails : Bool) (freshIno : Nat) (fs : FS) (src tmp : String) :
    Except Unit FS :=
  if copyFails then .error ()
  else
    match fs.files src with
    | none => .error ()
    | some f => .ok (fsSet fs tmp (some ⟨fs.devOf tmp, freshIno, f.content⟩))

/-- `os.replace(tmp, dst)`: atomic rename. -/
def os_replace (fs : FS) (tmp dst : String) : FS :=
  match fs.files tmp with
  | some f => fsSet (fsSet fs dst (some f)) tmp none
  | none => fs

/-- `os.remove(p)`. -/
def os_remove (fs : FS) (p : String) : FS := fsSet fs p none

/-- `create_hardlink` (lines 150-187), `DRY_RUN = false`.
Lines 151-162: if the destination exists and both files stat cleanly, the
call returns without touching anything (same inode or not); a
`FileNotFoundError` from the stats (the source vanished) falls through.
Lines 168-187: try `os.link`; on `EXDEV` copy to `dst + ".part"` and
rename it into place, removing the temporary on any failure; any other
error is logged and swallowed. -/
def create_hardlink (copyFails : Bool) (freshIno : Nat) (fs : FS) (src dst : String) : FS :=
  match fs.files dst, fs.files src with
  | some _, some _ => fs
  | _, _ =>
    match os_link fs src dst with
    | .ok fs2 => fs2
    | .error e =>
      if e = .exdev then
        let tmp := dst ++ ".part"
        match shutil_copy2 copyFails freshIno fs src tmp with
        | .ok fs1 => os_replace fs1 tmp dst
        | .error _ => if (fs.files tmp).isSome then os_remove fs tmp else fs
      else fs

/-! ## Audit store (`log_processed_media`, lines 285-302) and placement -/

/-- One row of the `processed_media` table. -/
structure AuditEntry where
  original_filename : String
  title : String
  media_type : String
  season : Option Nat
  episode : Option Nat
  year : Option Nat
  destination_path : String
deriving DecidableEq, Repr

/-- Pipeline state: filesystem plus the audit table. -/
structure PState where
  fs : FS
  audit : List AuditEntry

/-- `log_processed_media` (lines 285-302): unconditionally INSERTs a row. -/
def log_processed_media (st : PState) (e : AuditEntry) : PState :=
  { st with audit := st.audit ++ [e] }

/-- Quality-arbitration loop of `process_tv` (lines 449-471): walk the
existing episode files for the slot in enumeration order, deleting each
strictly inferior one; stop (and skip the incoming file) at the first one
that scores equal or higher.  Returns the deleted names and
`should_process`. -/
def arbitrate (newRes : Nat) : List String → List String × Bool
  | [] => ([], true)
  | f :: rest =>
    let existingRes := get_resolution f
    if newRes > existingRes then
      let (ds, b) := arbitrate newRes rest
      (f :: ds, b)
    else ([], false)

/-- Destination directory for an episode (lines 434-435). -/
def tv_dest_dir (tvRoot title : String) (season : Nat) : String :=
  tvRoot ++ "/" ++ title ++ "/" ++ "Season " ++ pad2 season

/-- Destination file name for an episode (line 477): note that it carries
no resolution token. -/
def tv_dest_name (src title : String) (season episode : Nat) : String :=
  replaceSpaceDot title ++ ".S" ++ pad2 season ++ "E" ++ pad2 episode ++ pySuffix src

/-- `process_tv` (lines 433-488), `DRY_RUN = false`.  `existingOf` is the
environment's answer to the `Path(dest_dir).glob(existing_pattern)` call
(the matching file names in enumeration order).  Deletions happen for
every strictly inferior file the loop inspects; the link and the audit row
happen only when `should_process` survived. -/
def process_tv (copyFails : Bool) (freshIno : Nat) (tvRoot : String)
    (existingOf : String → List String) (st : PState)
    (src title : String) (season episode : Nat) : PState :=
  let dest_dir := tv_dest_dir tvRoot title season
  let newRes := get_resolution (pyName src)
  let existing := existingOf dest_dir
  let arb := arbitrate newRes existing
  let fs1 := arb.1.foldl (fun fsa f => os_remove fsa (dest_dir ++ "/" ++ f)) st.fs
  if arb.2 then
    let dest_path := dest_dir ++ "/" ++ tv_dest_name src title season episode
    log_processed_media { fs := create_hardlink copyFails freshIno fs1 src dest_path, audit := st.audit }
      ⟨pyName src, title, "TV", some season, some episode, none, dest_path⟩
  else { fs := fs1, audit := st.audit }

/-- Movie destination folder name (line 491): `f"{title} ({year})" if year
else title` — Python truthiness, so year `0` (like `None`) falls back. -/
def movie_folder_name (title : String) (year : Option Nat) : String :=
  match year with
  | some y => if y = 0 then title else title ++ " (" ++ toString y ++ ")"
  | none => title

/-- Movie destination base name (lines 494-496): again Python truthiness
for the year. -/
def movie_base_name (title : String) (year : Option Nat) : String :=
  replaceSpaceDot title ++
    (match year with
     | some y => if y = 0 then "" else "." ++ toString y
     | none => "")

/-- Movie destination path (lines 491-498). -/
def movie_dest_path (movieRoot src title : String) (year : Option Nat) : String :=
  movieRoot ++ "/" ++ movie_folder_name title year ++ "/" ++
    movie_base_name title year ++ pySuffix src

/-- `process_movie` (lines 490-506), `DRY_RUN = false`: link (or skip) and
then unconditionally record the audit row. -/
def process_movie (copyFails : Bool) (freshIno : Nat) (movieRoot : String)
    (st : PState) (src title : String) (year : Option Nat) : PState :=
  let dest_path := movie_dest_path movieRoot src title year
  log_processed_media
    { fs := create_hardlink copyFails freshIno st.fs src dest_path, audit := st.audit }
    ⟨pyName src, title, "Movie", none, none, year, dest_path⟩

/-! ## `process_file` (lines 508-575) and its guards -/

/-- `TEMP_PARTIAL_SUFFIXES` (lines 100-107). -/
def TEMP_PARTIAL_SUFFIXES : List String :=
  [".part", ".crdownload", ".!ut", ".!qb", ".aria2", ".partial"]

/-- `is_temporary_file` (lines 113-134). -/
def is_temporary_file (filename : String) : Bool :=
  let ln := lowerL filename.data
  containsL ".!qb".data ln || TEMP_PARTIAL_SUFFIXES.any (fun s => endsWithL s.data ln)

/-- `VIDEO_EXTS` (line 97). -/
def VIDEO_EXTS : List String := [".mkv", ".mp4", ".avi", ".mov", ".m4v"]

/-- `is_video_file` (lines 109-111). -/
def is_video_file (path : String) : Bool :=
  VIDEO_EXTS.contains ⟨lowerL (pySuffix path).data⟩

/-- `is_recently_modified` (lines 136-142): a missing file counts as
recently modified; otherwise the age `now - mtime` must reach the grace
period. -/
def is_recently_modified (mtime : Option Int) (now grace : Int) : Bool :=
  match mtime with
  | none => true
  | some m => now - m < grace

/-- `process_file` (lines 508-575), per-call environment made explicit:
the clock (`currentYear`, `now`), the watched file's mtime, the glob
answers, the copy verdict and a fresh inode.  Returns the `bool` result
(`False` = retry later) and the updated state.  On lines 543-558, a movie
with a valid year always wins: the "suspicious episode" test (episode
greater than 50 or its digits inside the year) only selects the log
message, both branches call `process_movie` with the same arguments. -/
def process_file (currentYear : Nat) (skipSamples : Bool) (mtime : Option Int)
    (now grace : Int) (tvRoot movieRoot : String) (existingOf : String → List String)
    (copyFails : Bool) (freshIno : Nat) (st : PState) (path : String) : Bool × PState :=
  let filename := pyName path
  if is_temporary_file filename then (false, st)
  else if !is_video_file filename then (false, st)
  else if skipSamples && containsL "sample".data (lowerL filename.data) then (true, st)
  else if is_recently_modified mtime now grace then (false, st)
  else
    let movie_info := detect_movie currentYear filename
    let tv_info := detect_tv filename
    match movie_info with
    | some (title, some year) =>
      (true, process_movie copyFails freshIno movieRoot st path title (some year))
    | _ =>
      match tv_info with
      | some (title, season, episode) =>
        (true, process_tv copyFails freshIno tvRoot existingOf st path title season episode)
      | none =>
        match movie_info with
        | some (title, year) =>
          (true, process_movie copyFails freshIno movieRoot st path title year)
        | none => (true, st)

/-! ## Main polling loop (lines 606-646)

Only the retry discipline is modelled: each scan walks the listed files,
skips those in the `processed` set, runs `process_file` (abstracted to the
boolean `outcome`, which may vary with the scan index since the clock
advances), and adds a path to `processed` only on success. -/

/-- One pass of the `for full_path in video_files` body (lines 631-642):
returns the updated `processed` set and the paths attempted this scan. -/
def scanOnce (outcome : Nat → String → Bool) (k : Nat) :
    List String → List String → List String × List String
  | [], processed => (processed, [])
  | f :: rest, processed =>
    if f ∈ processed then scanOnce outcome k rest processed
    else
      let processed2 := if outcome k f then f :: processed else processed
      let r := scanOnce outcome k rest processed2
      (r.1, f :: r.2)

/-- The `processed` set after `n` scans. -/
def runScans (outcome : Nat → String → Bool) (files : List String) : Nat → List String
  | 0 => []
  | n + 1 => (scanOnce outcome n files (runScans outcome files n)).1

/-- The paths attempted during scan `n`. -/
def attemptedIn (outcome : Nat → String → Bool) (files : List String) (n : Nat) :
    List String :=
  (scanOnce outcome n files (runScans outcome files n)).2

/-- How many of the first `n` scans attempted path `p`. -/
def attemptsUpTo (outcome : Nat → String → Bool) (files : List String) (p : String) :
    Nat → Nat
  | 0 => 0
  | n + 1 =>
    attemptsUpTo outcome files p n +
      (if p ∈ attemptedIn outcome files n then 1 else 0)

/-! ## Specification-side definition for the stability refinement

The spec describes the stability checker as sampling size and mtime twice;
this definition follows the spec's words (§4.3) so it can be compared with
the source's `is_recently_modified`. -/

/-- Stability checker as worded by the spec: two samples of (size, mtime)
must agree and the size must be non-zero. -/
def stability_spec (size1 mtime1 size2 mtime2 : Nat) : Bool :=
  size1 == size2 && mtime1 == mtime2 && size1 != 0

/-! ## Concrete scenarios used by counterexamples and witnesses -/

/-- A watch tree holding one movie file on device 0. -/
def fsA : FS :=
  { files := fun p => if p = "/w/Alpha.2020.mkv" then some ⟨0, 7, 99⟩ else none
  , devOf := fun _ => 0 }

/-- Initial state for the movie scenarios. -/
def stA : PState := { fs := fsA, audit := [] }

/-- After processing `Alpha.2020.mkv` once. -/
def stA1 : PState :=
  process_movie false 11 "/media/Movies" stA "/w/Alpha.2020.mkv" "Alpha" (some 2020)

/-- After processing the identical file a second time. -/
def stA2 : PState :=
  process_movie false 12 "/media/Movies" stA1 "/w/Alpha.2020.mkv" "Alpha" (some 2020)

/-- A TV scenario: incoming 720p episode, destination already holding a
480p and a 1080p file for the same slot (in that enumeration order). -/
def fsT : FS :=
  { files := fun p =>
      if p = "/w/Show.S01E01.720p.mkv" then some ⟨0, 3, 5⟩
      else if p = "/media/TV/Show/Season 01/Show.S01E01.480p.mkv" then some ⟨0, 4, 6⟩
      else if p = "/media/TV/Show/Season 01/Show.S01E01.1080p.mkv" then some ⟨0, 5, 7⟩
      else none
  , devOf := fun _ => 0 }

/-- Initial state of the TV scenario. -/
def stT : PState := { fs := fsT, audit := [] }

/-- Glob answers of the TV scenario. -/
def globT : String → List String := fun d =>
  if d = "/media/TV/Show/Season 01" then
    ["Show.S01E01.480p.mkv", "Show.S01E01.1080p.mkv"]
  else []

/-- The TV scenario after processing the 720p file. -/
def stT1 : PState :=
  process_tv false 8 "/media/TV" globT stT "/w/Show.S01E01.720p.mkv" "Show" 1 1

/-- State holding the file of the classification-precedence example. -/
def stC2 : PState :=
  { fs :=
      { files := fun p =>
          if p = "/w/Some.Movie.Part.2.2026.1080p.mkv" then some ⟨0, 3, 5⟩ else none
      , devOf := fun _ => 0 }
  , audit := [] }

/-- A filesystem where destination and source exist: the destination
`/m/x.mkv` is the same inode as the source, `/m/y.mkv` a different file. -/
def fsC9 : FS :=
  { files := fun p =>
      if p = "/w/x.mkv" then some ⟨0, 1, 5⟩
      else if p = "/m/x.mkv" then some ⟨0, 1, 5⟩
      else if p = "/m/y.mkv" then some ⟨0, 2, 6⟩
      else none
  , devOf := fun _ => 0 }

/-- A source on device 1 while every destination directory is device 0:
hardlinking must fail with `EXDEV`. -/
def fsX : FS :=
  { files := fun p => if p = "/w/a.mkv" then some ⟨1, 5, 42⟩ else none
  , devOf := fun _ => 0 }

/-! ## Well-formedness predicates -/

/-- No leading and no trailing whitespace. -/
def strippedL (l : List Char) : Prop :=
  (∀ c, l.head? = some c → pySpace c = false) ∧
  (∀ c, l.getLast? = some c → pySpace c = false)

/-! ## Helper lemmas: digit bounds through the pattern matchers -/

theorem digitVal_le_nine {c : Char} (h : isDig c = true) : digitVal c ≤ 9 := by
  simp only [isDig, Bool.and_eq_true, decide_eq_true_eq] at h
  simp only [digitVal]
  omega

theorem parse12_bound {k : Nat → List Char → Option (Nat × Nat)} {l : List Char}
    {r : Nat × Nat} (h : parse12 k l = some r) :
    ∃ n rs, n ≤ 99 ∧ k n rs = some r := by
  match l with
  | [] => simp [parse12] at h
  | [c1] =>
    simp only [parse12] at h
    split at h
    · exact ⟨digitVal c1, [], by have := digitVal_le_nine ‹_›; omega, h⟩
    · exact absurd h (by simp)
  | c1 :: c2 :: rs =>
    simp only [parse12] at h
    split at h
    case isTrue h1 =>
      split at h
      case isTrue h2 =>
        cases hk : k (10 * digitVal c1 + digitVal c2) rs with
        | some r2 =>
          rw [hk] at h
          cases h
          exact ⟨_, rs,
            by have := digitVal_le_nine h1; have := digitVal_le_nine h2; omega, hk⟩
        | none =>
          rw [hk] at h
          exact ⟨digitVal c1, c2 :: rs, by have := digitVal_le_nine h1; omega, h⟩
      case isFalse =>
        exact ⟨digitVal c1, c2 :: rs, by have := digitVal_le_nine h1; omega, h⟩
    case isFalse => exact absurd h (by simp)

theorem seTail_bound {l : List Char} {r : Nat × Nat} (h : seTail l = some r) :
    r.1 ≤ 99 ∧ r.2 ≤ 99 := by
  match l with
  | [] => simp [seTail] at h
  | c :: rs =>
    simp only [seTail] at h
    split at h
    · obtain ⟨n, r2, hn, hk⟩ := parse12_bound h
      split at hk
      · exact absurd hk (by simp)
      · split at hk
        · obtain ⟨m, r4, hm, hk2⟩ := parse12_bound hk
          cases hk2
          exact ⟨hn, hm⟩
        · exact absurd hk (by simp)
    · exact absurd h (by simp)

theorem tryP1_bound {l : List Char} {r : Nat × Nat} (h : tryP1 l = some r) :
    r.1 ≤ 99 ∧ r.2 ≤ 99 := by
  simp only [tryP1] at h
  split at h
  · exact seTail_bound h
  · exact absurd h (by simp)

theorem tryP2_bound {l : List Char} {r : Nat × Nat} (h : tryP2 l = some r) :
    r.1 ≤ 99 ∧ r.2 ≤ 99 := seTail_bound h

theorem tryP3_bound {l : List Char} {r : Nat × Nat} (h : tryP3 l = some r) :
    r.1 ≤ 99 ∧ r.2 ≤ 99 := by
  simp only [tryP3] at h
  split at h
  · obtain ⟨n, r2, hn, hk⟩ := parse12_bound h
    split at hk
    · exact absurd hk (by simp)
    · split at hk
      · obtain ⟨m, r4, hm, hk2⟩ := parse12_bound hk
        cases hk2
        exact ⟨hn, hm⟩
      · exact absurd hk (by simp)
  · exact absurd h (by simp)

theorem threeDigits_bound {l : List Char} {r : Nat × Nat} (h : threeDigits l = some r) :
    r.1 ≤ 99 ∧ r.2 ≤ 99 := by
  match l with
  | [] => simp [threeDigits] at h
  | [a] => simp [threeDigits] at h
  | [a, b] => simp [threeDigits] at h
  | a :: b :: c :: rs =>
    simp only [threeDigits] at h
    split at h
    case isTrue hc =>
      simp only [Bool.and_eq_true] at hc
      cases h
      refine ⟨?_, ?_⟩
      · have := digitVal_le_nine hc.1.1.1
        omega
      · have := digitVal_le_nine hc.1.1.2
        have := digitVal_le_nine hc.1.2
        omega
    case isFalse => exact absurd h (by simp)

theorem tryP4_bound {l : List Char} {r : Nat × Nat} (h : tryP4 l = some r) :
    r.1 ≤ 99 ∧ r.2 ≤ 99 := by
  simp only [tryP4] at h
  split at h
  case h_1 r' halt =>
    cases h
    split at halt
    · split at halt
      · exact threeDigits_bound halt
      · exact absurd halt (by simp)
    · exact absurd halt (by simp)
  case h_2 halt =>
    split at h
    · split at h
      · split at h
        · exact threeDigits_bound h
        · exact absurd h (by simp)
      · exact absurd h (by simp)
    · exact absurd h (by simp)

theorem tryP5_bound {l : List Char} {r : Nat × Nat} (h : tryP5 l = some r) :
    r.1 ≤ 99 ∧ r.2 ≤ 99 := by
  simp only [tryP5] at h
  split at h
  · exact absurd h (by simp)
  · split at h
    · obtain ⟨n, r2, hn, hk⟩ := parse12_bound h
      split at hk
      · exact absurd hk (by simp)
      · split at hk
        · obtain ⟨m, r4, hm, hk2⟩ := parse12_bound hk
          split at hk2
          · exact absurd hk2 (by simp)
          · split at hk2
            · cases hk2
              exact ⟨hn, hm⟩
            · split at hk2
              · split at hk2
                · split at hk2
                  · cases hk2
                    exact ⟨hn, hm⟩
                  · exact absurd hk2 (by simp)
                · exact absurd hk2 (by simp)
              · exact absurd hk2 (by simp)
        · exact absurd hk (by simp)
    · exact absurd h (by simp)

theorem reSearch_bound {tryAt : List Char → Option (Nat × Nat)}
    (H : ∀ l r, tryAt l = some r → r.1 ≤ 99 ∧ r.2 ≤ 99) :
    ∀ rest tacc t s e, reSearch tryAt rest tacc = some (t, s, e) → s ≤ 99 ∧ e ≤ 99 := by
  intro rest
  induction rest with
  | nil =>
    intro tacc t s e h
    rw [reSearch] at h
    split at h
    next s' e' heq => cases h; exact H _ _ heq
    next => exact absurd h (by simp)
  | cons c rs ih =>
    intro tacc t s e h
    rw [reSearch] at h
    split at h
    next s' e' heq => cases h; exact H _ _ heq
    next =>
      split at h
      · exact absurd h (by simp)
      · exact ih _ _ _ _ h

theorem runPat_bound {tryAt : List Char → Option (Nat × Nat)} {cb : List Char}
    {t : String} {s e : Nat}
    (H : ∀ l r, tryAt l = some r → r.1 ≤ 99 ∧ r.2 ≤ 99)
    (h : runPat tryAt cb = some (t, s, e)) : s ≤ 99 ∧ e ≤ 99 := by
  rw [runPat] at h
  split at h
  next t' s' e' hsr => cases h; exact reSearch_bound H cb [] _ _ _ hsr
  next => exact absurd h (by simp)

theorem tvAccept_shape {o : Option (String × Nat × Nat)} {t : String} {s e : Nat}
    (h : tvAccept o = some (t, s, e)) :
    (∃ raw, t = normalize_tv_title (clean_title raw) ∧ o = some (raw, s, e)) ∧ t ≠ "" := by
  match o with
  | none => simp [tvAccept] at h
  | some (raw, s', e') =>
    simp only [tvAccept] at h
    split at h
    · exact absurd h (by simp)
    · cases h
      exact ⟨⟨raw, rfl, rfl⟩, by assumption⟩

theorem firstSome_eq_some {os : List (Option (String × Nat × Nat))}
    {v : String × Nat × Nat} (h : firstSome os = some v) : some v ∈ os := by
  induction os with
  | nil => simp [firstSome] at h
  | cons o os ih =>
    match o with
    | some a => simp only [firstSome] at h; cases h; exact List.mem_cons_self _ _
    | none => exact List.mem_cons_of_mem _ (ih h)

/-! ## Stripped-string lemmas -/

theorem head?_dropWhile_eq_false {α : Type} {p : α → Bool} {l : List α} {c : α}
    (h : (l.dropWhile p).head? = some c) : p c = false := by
  induction l with
  | nil => simp [List.dropWhile] at h
  | cons a t ih =>
    simp only [List.dropWhile] at h
    split at h
    · exact ih h
    · simp only [List.head?_cons, Option.some.injEq] at h
      subst h
      simp_all

theorem getLast?_dropWhile_eq {α : Type} {p : α → Bool} {l : List α} {c : α}
    (h : (l.dropWhile p).getLast? = some c) : l.getLast? = some c := by
  induction l with
  | nil => simp [List.dropWhile] at h
  | cons a t ih =>
    simp only [List.dropWhile] at h
    split at h
    · have ht := ih h
      cases t with
      | nil => simp at ht
      | cons b u => rw [List.getLast?_cons_cons]; exact ht
    · exact h

theorem strippedL_pyStripL (l : List Char) : strippedL (pyStripL l) := by
  constructor
  · intro c hc
    simp only [pyStripL] at hc
    rw [List.head?_reverse] at hc
    have := getLast?_dropWhile_eq hc
    rw [List.getLast?_reverse] at this
    exact head?_dropWhile_eq_false this
  · intro c hc
    simp only [pyStripL] at hc
    rw [List.getLast?_reverse] at hc
    exact head?_dropWhile_eq_false hc

theorem normalize_tv_title_stripped (s : String) : strippedL (normalize_tv_title s).data := by
  rw [normalize_tv_title]
  split
  · split
    · exact strippedL_pyStripL _
    · exact strippedL_pyStripL _
  · exact strippedL_pyStripL _

/-! ## Placement-engine lemmas -/

theorem fsSet_same (fs : FS) (p : String) (v : Option MFile) :
    (fsSet fs p v).files p = v := by
  simp [fsSet]

theorem fsSet_other (fs : FS) (p : String) (v : Option MFile) (q : String)
    (h : q ≠ p) : (fsSet fs p v).files q = fs.files q := by
  simp [fsSet, h]

theorem string_ne_append_part (dst : String) : dst ≠ dst ++ ".part" := by
  intro h
  have hlen := congrArg String.length h
  rw [String.length_append] at hlen
  have : (".part" : String).length = 5 := rfl
  omega

/-- If the destination already exists, `create_hardlink` changes nothing:
with a healthy source the pre-check returns; with a vanished source the
fall-through `os.link` raises `ENOENT`, which is logged and swallowed. -/
theorem create_hardlink_exists_noop (copyFails : Bool) (freshIno : Nat) (fs : FS)
    (src dst : String) (d : MFile) (hd : fs.files dst = some d) :
    create_hardlink copyFails freshIno fs src dst = fs := by
  rw [create_hardlink]
  cases hs : fs.files src with
  | some s => rw [hd]
  | none =>
    rw [hd]
    simp [os_link, hs]

/-- C9 helper: the audit row written by `process_movie`. -/
def movieAudit (movieRoot src title : String) (year : Option Nat) : AuditEntry :=
  ⟨pyName src, title, "Movie", none, none, year, movie_dest_path movieRoot src title year⟩

/-! ## Claim theorems -/

/-- C9: the link-creation step never modifies an existing destination:
whenever the destination path is occupied and both source and destination
can be stat'ed, `create_hardlink` returns the filesystem unchanged —
whether the destination is the same inode as the source or a different
file. -/
theorem C9_create_hardlink_no_overwrite (copyFails : Bool) (freshIno : Nat) (fs : FS)
    (src dst : String) (s d : MFile)
    (hs : fs.files src = some s) (hd : fs.files dst = some d) :
    create_hardlink copyFails freshIno fs src dst = fs := by
  rw [create_hardlink, hd, hs]

/-- Witness for C9 at a concrete filesystem: skipping both when the
destination is the very same inode as the source and when it is a
different file. -/
theorem C9_witness :
    fsC9.files "/w/x.mkv" = some ⟨0, 1, 5⟩ ∧
    fsC9.files "/m/x.mkv" = some ⟨0, 1, 5⟩ ∧
    fsC9.files "/m/y.mkv" = some ⟨0, 2, 6⟩ ∧
    create_hardlink false 7 fsC9 "/w/x.mkv" "/m/x.mkv" = fsC9 ∧
    create_hardlink false 7 fsC9 "/w/x.mkv" "/m/y.mkv" = fsC9 :=
  ⟨rfl, rfl, rfl,
    C9_create_hardlink_no_overwrite false 7 fsC9 "/w/x.mkv" "/m/x.mkv" ⟨0, 1, 5⟩ ⟨0, 1, 5⟩ rfl rfl,
    C9_create_hardlink_no_overwrite false 7 fsC9 "/w/x.mkv" "/m/y.mkv" ⟨0, 1, 5⟩ ⟨0, 2, 6⟩ rfl rfl⟩

/-- C8: movie placement performs no quality arbitration: the destination
directory is `<movie_root>/<title> (<year>)`, or `<movie_root>/<title>`
when the year is absent, and an existing destination file makes the
operation an idempotent skip that deletes and replaces nothing. -/
theorem C8_process_movie_skip (copyFails : Bool) (freshIno : Nat) (movieRoot : String)
    (st : PState) (src title : String) (year : Option Nat) (d : MFile)
    (hex : st.fs.files (movie_dest_path movieRoot src title year) = some d) :
    (process_movie copyFails freshIno movieRoot st src title year).fs = st.fs
    ∧ (∀ y : Nat, y ≠ 0 →
        movie_folder_name title (some y) = title ++ " (" ++ toString y ++ ")")
    ∧ movie_folder_name title none = title
    ∧ (∃ fnm, movie_dest_path movieRoot src title year
        = movieRoot ++ "/" ++ movie_folder_name title year ++ "/" ++ fnm) := by
  refine ⟨?_, ?_, rfl, ?_⟩
  · simp only [process_movie, log_processed_media]
    exact create_hardlink_exists_noop _ _ _ _ _ _ hex
  · intro y hy
    simp [movie_folder_name, hy]
  · exact ⟨movie_base_name title year ++ pySuffix src, by
      simp only [movie_dest_path]; rw [String.append_assoc]⟩

/-- Witness for C8: the second submission of `Alpha.2020.mkv` hits an
occupied destination and leaves the filesystem untouched. -/
theorem C8_witness :
    stA1.fs.files (movie_dest_path "/media/Movies" "/w/Alpha.2020.mkv" "Alpha" (some 2020))
      = some ⟨0, 7, 99⟩ ∧
    ((process_movie false 12 "/media/Movies" stA1 "/w/Alpha.2020.mkv" "Alpha" (some 2020)).fs
        = stA1.fs
      ∧ (∀ y : Nat, y ≠ 0 →
          movie_folder_name "Alpha" (some y) = "Alpha" ++ " (" ++ toString y ++ ")")
      ∧ movie_folder_name "Alpha" none = "Alpha"
      ∧ (∃ fnm, movie_dest_path "/media/Movies" "/w/Alpha.2020.mkv" "Alpha" (some 2020)
          = "/media/Movies" ++ "/" ++ movie_folder_name "Alpha" (some 2020) ++ "/" ++ fnm)) :=
  ⟨rfl, C8_process_movie_skip false 12 "/media/Movies" stA1 "/w/Alpha.2020.mkv" "Alpha"
    (some 2020) ⟨0, 7, 99⟩ rfl⟩

/-- C3 counterexample: reprocessing the identical movie file does append a
second audit row (the claim says it records no second audit entry), even
though the destination file itself is untouched. -/
theorem C3_counterexample :
    stA2.audit.length = 2 ∧
    stA2.fs.files "/media/Movies/Alpha (2020)/Alpha.2020.mkv"
      = stA1.fs.files "/media/Movies/Alpha (2020)/Alpha.2020.mkv" :=
  ⟨rfl, rfl⟩

/-- C3 amended: processing the same movie file a second time creates no
second destination file — the link step skips the occupied destination —
but it does record one more audit entry in the processed-media store. -/
theorem C3_second_run (copyFails : Bool) (freshIno : Nat) (movieRoot : String)
    (st : PState) (src title : String) (year : Option Nat) (d : MFile)
    (hex : st.fs.files (movie_dest_path movieRoot src title year) = some d) :
    (process_movie copyFails freshIno movieRoot st src title year).fs = st.fs
    ∧ (process_movie copyFails freshIno movieRoot st src title year).audit
        = st.audit ++ [movieAudit movieRoot src title year] := by
  constructor
  · simp only [process_movie, log_processed_media]
    exact create_hardlink_exists_noop _ _ _ _ _ _ hex
  · rfl

/-- Witness for C3: the concrete second run of `Alpha.2020.mkv`. -/
theorem C3_witness :
    stA1.fs.files (movie_dest_path "/media/Movies" "/w/Alpha.2020.mkv" "Alpha" (some 2020))
      = some ⟨0, 7, 99⟩ ∧
    (stA2.fs = stA1.fs
      ∧ stA2.audit
          = stA1.audit ++ [movieAudit "/media/Movies" "/w/Alpha.2020.mkv" "Alpha" (some 2020)]) :=
  ⟨rfl, C3_second_run false 12 "/media/Movies" stA1 "/w/Alpha.2020.mkv" "Alpha"
    (some 2020) ⟨0, 7, 99⟩ rfl⟩

/-- C5: when hardlinking fails across filesystems, placement falls back to
a copy at the temporary sibling `dst + ".part"` renamed into the
destination; on a failing copy the temporary artifact is removed and the
destination stays absent.  (`copyFails` is the environment's verdict on
the `shutil.copy2`/`os.replace` sequence.) -/
theorem C5_crossdevice_fallback (copyFails : Bool) (freshIno : Nat) (fs : FS)
    (src dst : String) (f : MFile)
    (hdst : fs.files dst = none) (hsrc : fs.files src = some f)
    (hdev : f.dev ≠ fs.devOf dst) :
    (copyFails = false →
      (create_hardlink copyFails freshIno fs src dst).files dst
          = some ⟨fs.devOf (dst ++ ".part"), freshIno, f.content⟩
      ∧ (create_hardlink copyFails freshIno fs src dst).files (dst ++ ".part") = none
      ∧ ∀ q, q ≠ dst → q ≠ dst ++ ".part" →
          (create_hardlink copyFails freshIno fs src dst).files q = fs.files q)
    ∧ (copyFails = true →
      (create_hardlink copyFails freshIno fs src dst).files dst = none
      ∧ (create_hardlink copyFails freshIno fs src dst).files (dst ++ ".part") = none
      ∧ ∀ q, q ≠ dst ++ ".part" →
          (create_hardlink copyFails freshIno fs src dst).files q = fs.files q) := by
  have hne := string_ne_append_part dst
  constructor
  · rintro rfl
    have hred : create_hardlink false freshIno fs src dst
        = fsSet (fsSet (fsSet fs (dst ++ ".part")
            (some ⟨fs.devOf (dst ++ ".part"), freshIno, f.content⟩)) dst
            (some ⟨fs.devOf (dst ++ ".part"), freshIno, f.content⟩)) (dst ++ ".part")
            none := by
      rw [create_hardlink, hdst, hsrc]
      simp only [os_link, hsrc, hdst, hdev]
      simp only [shutil_copy2, hsrc]
      simp [os_replace, fsSet_same]
    rw [hred]
    refine ⟨?_, ?_, ?_⟩
    · rw [fsSet_other _ _ _ _ hne, fsSet_same]
    · rw [fsSet_same]
    · intro q hq1 hq2
      rw [fsSet_other _ _ _ _ hq2, fsSet_other _ _ _ _ hq1, fsSet_other _ _ _ _ hq2]
  · rintro rfl
    have hstep : create_hardlink true freshIno fs src dst
        = if (fs.files (dst ++ ".part")).isSome then os_remove fs (dst ++ ".part")
          else fs := by
      rw [create_hardlink, hdst, hsrc]
      simp only [os_link, hsrc, hdst, hdev]
      simp [shutil_copy2]
    rw [hstep]
    cases htmp : fs.files (dst ++ ".part") with
    | some tf =>
      simp only [htmp, Option.isSome_some, if_true, os_remove]
      refine ⟨?_, ?_, ?_⟩
      · rw [fsSet_other _ _ _ _ hne]; exact hdst
      · rw [fsSet_same]
      · intro q hq
        rw [fsSet_other _ _ _ _ hq]
    | none =>
      simp [htmp, hdst]

/-- Witness for C5 on the concrete cross-device filesystem `fsX`, for a
succeeding and for a failing copy. -/
theorem C5_witness :
    fsX.files "/m/a.mkv" = none ∧ fsX.files "/w/a.mkv" = some ⟨1, 5, 42⟩ ∧
    (1 : Nat) ≠ fsX.devOf "/m/a.mkv" ∧
    ((create_hardlink false 33 fsX "/w/a.mkv" "/m/a.mkv").files "/m/a.mkv"
        = some ⟨fsX.devOf ("/m/a.mkv" ++ ".part"), 33, 42⟩
      ∧ (create_hardlink false 33 fsX "/w/a.mkv" "/m/a.mkv").files ("/m/a.mkv" ++ ".part")
        = none) ∧
    ((create_hardlink true 33 fsX "/w/a.mkv" "/m/a.mkv").files "/m/a.mkv" = none
      ∧ (create_hardlink true 33 fsX "/w/a.mkv" "/m/a.mkv").files ("/m/a.mkv" ++ ".part")
        = none) := by
  refine ⟨rfl, rfl, by decide, ?_, ?_⟩
  · have h := (C5_crossdevice_fallback false 33 fsX "/w/a.mkv" "/m/a.mkv" ⟨1, 5, 42⟩
      rfl rfl (by decide)).1 rfl
    exact ⟨h.1, h.2.1⟩
  · have h := (C5_crossdevice_fallback true 33 fsX "/w/a.mkv" "/m/a.mkv" ⟨1, 5, 42⟩
      rfl rfl (by decide)).2 rfl
    exact ⟨h.1, h.2.1⟩

/-! ## Quality arbitration (C1) -/

theorem arbitrate_eq (newRes : Nat) (l : List String) :
    arbitrate newRes l
      = (l.takeWhile (fun f => decide (get_resolution f < newRes)),
         l.all (fun f => decide (get_resolution f < newRes))) := by
  induction l with
  | nil => rfl
  | cons f rest ih =>
    by_cases hr : get_resolution f < newRes
    · simp [arbitrate, List.takeWhile_cons, hr, ih, gt_iff_lt]
    · simp [arbitrate, List.takeWhile_cons, hr, gt_iff_lt]

theorem append_singleton_ne {α : Type} (l : List α) (a : α) : l ++ [a] ≠ l := by
  intro h
  have := congrArg List.length h
  simp at this

/-- C1 counterexample: with a 720p file incoming and the destination
holding (in enumeration order) a 480p and a 1080p file for the same slot,
an existing file (the 1080p) scores higher than the incoming file, yet the
run is not a no-op: the 480p file is deleted from the filesystem while the
incoming file is still skipped (no audit row, nothing placed). -/
theorem C1_counterexample :
    get_resolution (pyName "/w/Show.S01E01.720p.mkv") = 720
    ∧ get_resolution "Show.S01E01.1080p.mkv" = 1080
    ∧ stT.fs.files "/media/TV/Show/Season 01/Show.S01E01.480p.mkv" = some ⟨0, 4, 6⟩
    ∧ stT1.fs.files "/media/TV/Show/Season 01/Show.S01E01.480p.mkv" = none
    ∧ stT1.audit = [] :=
  ⟨rfl, rfl, rfl, rfl, rfl⟩

/-- C1 amended: the arbitration loop walks the existing files in
enumeration order, deleting every strictly inferior file it inspects, and
stops — skipping the incoming file — at the first existing file with an
equal-or-higher score; files inspected before that point are deleted even
when a better file appears later in the enumeration.  The incoming episode
is placed (and audited) exactly when every existing file scores strictly
below it, in which case they are all deleted first. -/
theorem C1_arbitration (copyFails : Bool) (freshIno : Nat) (tvRoot : String)
    (existingOf : String → List String) (st : PState) (src title : String)
    (season episode : Nat) :
    (∀ newRes l, arbitrate newRes l
      = (l.takeWhile (fun f => decide (get_resolution f < newRes)),
         l.all (fun f => decide (get_resolution f < newRes))))
    ∧ ((process_tv copyFails freshIno tvRoot existingOf st src title season episode).audit
          ≠ st.audit
        ↔ (existingOf (tv_dest_dir tvRoot title season)).all
            (fun f => decide (get_resolution f < get_resolution (pyName src))) = true) := by
  refine ⟨arbitrate_eq, ?_⟩
  simp only [process_tv, arbitrate_eq, log_processed_media]
  constructor
  · intro hne
    by_contra hall
    simp only [hall, if_false] at hne
    exact hne rfl
  · intro hall
    simp only [hall, if_true]
    exact append_singleton_ne _ _

/-! ## Classification precedence (C2) -/

/-- C2 counterexample: for `Some.Movie.Part.2.2026.1080p.mkv` no episode
pattern matches at all — the claim's premise that an episode match fired
and was overridden does not hold on the code (the concatenated-digits
pattern refuses a 3-digit group followed by a further digit, so the year
blocks it). -/
theorem C2_counterexample :
    detect_tv "Some.Movie.Part.2.2026.1080p.mkv" = none := rfl

/-- C2 amended: the example file classifies as the movie
`Some Movie Part 2 (2026)` and not as an episode; `detect_tv` simply finds
no episode pattern (so no override is needed), and `process_file` places
it as a movie with the corresponding audit row. -/
theorem C2_classification :
    detect_movie 2026 "Some.Movie.Part.2.2026.1080p.mkv"
      = some ("Some Movie Part 2", some 2026)
    ∧ detect_tv "Some.Movie.Part.2.2026.1080p.mkv" = none
    ∧ (process_file 2026 true (some 0) 1000 60 "/media/TV" "/media/Movies"
        (fun _ => []) false 9 stC2 "/w/Some.Movie.Part.2.2026.1080p.mkv").1 = true
    ∧ (process_file 2026 true (some 0) 1000 60 "/media/TV" "/media/Movies"
        (fun _ => []) false 9 stC2 "/w/Some.Movie.Part.2.2026.1080p.mkv").2.audit
      = [⟨"Some.Movie.Part.2.2026.1080p.mkv", "Some Movie Part 2", "Movie", none, none,
          some 2026,
          "/media/Movies/Some Movie Part 2 (2026)/Some.Movie.Part.2.2026.mkv"⟩] :=
  ⟨rfl, rfl, rfl, rfl⟩

/-! ## Retry discipline of the main loop (C4) -/

theorem scanOnce_not_added {outcome : Nat → String → Bool} {k : Nat} {p : String}
    (hout : outcome k p = false) :
    ∀ files processed, p ∉ processed → p ∉ (scanOnce outcome k files processed).1 := by
  intro files
  induction files with
  | nil => intro processed hnp; exact hnp
  | cons f rest ih =>
    intro processed hnp
    rw [scanOnce]
    split
    · exact ih processed hnp
    · apply ih
      by_cases hfp : f = p
      · subst hfp
        rw [hout]
        exact hnp
      · split
        · intro hmem
          rcases List.mem_cons.1 hmem with h | h
          · exact hfp h.symm
          · exact hnp h
        · exact hnp

theorem scanOnce_attempted {outcome : Nat → String → Bool} {k : Nat} {p : String} :
    ∀ files processed, p ∈ files → p ∉ processed →
      p ∈ (scanOnce outcome k files processed).2 := by
  intro files
  induction files with
  | nil => intro processed hin; exact absurd hin (List.not_mem_nil p)
  | cons f rest ih =>
    intro processed hin hnp
    rw [scanOnce]
    split
    next hfmem =>
      rcases List.mem_cons.1 hin with h | h
      · exact absurd hfmem (h ▸ hnp)
      · exact ih processed h hnp
    next hfmem =>
      by_cases hfp : p = f
      · exact hfp ▸ List.mem_cons_self _ _
      · apply List.mem_cons_of_mem
        rcases List.mem_cons.1 hin with h | h
        · exact absurd h hfp
        · apply ih _ h
          split
          · intro hmem
            rcases List.mem_cons.1 hmem with h2 | h2
            · exact hfp h2
            · exact hnp h2
          · exact hnp

/-- C4 counterexample: a path for which `process_file` keeps returning
`False` (for instance one that stays inside the grace period) has been
attempted six times after six scans and is attempted again in the seventh
— there is no retry ceiling, no give-up, and the path is never dropped. -/
theorem C4_counterexample :
    5 < attemptsUpTo (fun _ _ => false) ["/w/stuck.mkv"] "/w/stuck.mkv" 6
    ∧ "/w/stuck.mkv" ∈ attemptedIn (fun _ _ => false) ["/w/stuck.mkv"] 6 := by
  exact ⟨by decide, by decide⟩

/-- C4 amended: the main loop has no retry counter and no `max_retries`:
a listed path whose `process_file` outcome is `False` at every scan is
never added to the `processed` set, is attempted in every single scan, and
after `n` scans has been attempted exactly `n` times.  Only a successful
(or terminal) outcome stops the retrying. -/
theorem C4_unbounded_retry (outcome : Nat → String → Bool) (files : List String)
    (p : String) (hp : p ∈ files) (hfail : ∀ k, outcome k p = false) :
    ∀ n, p ∉ runScans outcome files n
      ∧ p ∈ attemptedIn outcome files n
      ∧ attemptsUpTo outcome files p n = n := by
  intro n
  induction n with
  | zero =>
    refine ⟨by simp [runScans], ?_, rfl⟩
    exact scanOnce_attempted files _ hp (by simp [runScans])
  | succ n ih =>
    have hnot : p ∉ runScans outcome files (n + 1) := by
      rw [runScans]
      exact scanOnce_not_added (hfail n) files _ ih.1
    refine ⟨hnot, ?_, ?_⟩
    · exact scanOnce_attempted files _ hp hnot
    · rw [attemptsUpTo, ih.2.2, if_pos ih.2.1]

/-- Witness for C4: the concrete always-failing single-file loop after
four scans. -/
theorem C4_witness :
    ("/w/stuck.mkv" ∈ ["/w/stuck.mkv"])
    ∧ ("/w/stuck.mkv" ∉ runScans (fun _ _ => false) ["/w/stuck.mkv"] 4
        ∧ "/w/stuck.mkv" ∈ attemptedIn (fun _ _ => false) ["/w/stuck.mkv"] 4
        ∧ attemptsUpTo (fun _ _ => false) ["/w/stuck.mkv"] "/w/stuck.mkv" 4 = 4) :=
  ⟨by decide,
    C4_unbounded_retry (fun _ _ => false) ["/w/stuck.mkv"] "/w/stuck.mkv"
      (by decide) (fun _ => rfl) 4⟩

/-! ## Movie year validation (C6) -/

/-- C6 counterexample: with the clock at year 2026 the token `2028` lies
inside the claimed range `[1900, current_year + 2]` but is rejected by the
code (`year <= current_year + 1`): the file is classified with the year
folded into the title and no year field. -/
theorem C6_counterexample :
    detect_movie 2026 "Foo.2028.mkv" = some ("Foo 2028", none)
    ∧ detect_movie 2026 "Foo.2028.mkv" ≠ some ("Foo", some 2028) :=
  ⟨rfl, by decide⟩

/-- C6 amended: the year token found by the search is accepted if and only
if it lies in `[1900, current_year + 1]`; when accepted, the movie title
is the cleaned text preceding the token, and when rejected the result
carries no year at all. -/
theorem C6_year_range (currentYear : Nat) (filename : String) (pre : List Char)
    (y : Nat)
    (hsearch : yearSearch (sanitize_for_matching (pyStem filename)).data
      = some (pre, y))
    (hne : clean_title ⟨pre⟩ ≠ "") :
    ((1900 ≤ y ∧ y ≤ currentYear + 1) →
      detect_movie currentYear filename = some (clean_title ⟨pre⟩, some y))
    ∧ (¬(1900 ≤ y ∧ y ≤ currentYear + 1) →
      ∀ t o, detect_movie currentYear filename = some (t, o) → o = none) := by
  constructor
  · intro hy
    simp [detect_movie, hsearch, hy.1, hy.2, hne]
  · intro hy t o hdm
    simp only [detect_movie, hsearch] at hdm
    rw [if_neg hy] at hdm
    split at hdm
    · exact absurd hdm (by simp)
    · simp only [Option.some.injEq, Prod.mk.injEq] at hdm
      exact hdm.2.symm

/-- Witness for C6 on `Foo.2020.mkv` at clock year 2026. -/
theorem C6_witness :
    yearSearch (sanitize_for_matching (pyStem "Foo.2020.mkv")).data
      = some ("Foo ".data, 2020)
    ∧ clean_title ⟨"Foo ".data⟩ ≠ ""
    ∧ (((1900 ≤ 2020 ∧ 2020 ≤ 2026 + 1) →
        detect_movie 2026 "Foo.2020.mkv" = some (clean_title ⟨"Foo ".data⟩, some 2020))
      ∧ (¬(1900 ≤ 2020 ∧ 2020 ≤ 2026 + 1) →
        ∀ t o, detect_movie 2026 "Foo.2020.mkv" = some (t, o) → o = none)) :=
  ⟨rfl, by decide,
    C6_year_range 2026 "Foo.2020.mkv" "Foo ".data 2020 rfl (by decide)⟩

/-! ## Readiness gating (C7) -/

/-- C7 counterexample: the source's check is a single-sample age test, not
the two-sample size/mtime comparison the claim describes — a zero-size
file with an old mtime is reported ready by the code
(`is_recently_modified` = false, so `process_file` proceeds to place it),
while the claim's checker calls the same file unstable. -/
theorem C7_counterexample :
    is_recently_modified (some 0) 1000 60 = false
    ∧ stability_spec 0 0 0 0 = false :=
  ⟨rfl, rfl⟩

/-- C7 amended: the readiness check is a single-sample grace-period test
on the modification time (file size is never examined); a missing file is
reported not-ready — not an error — and a file reported not-ready is never
placed in that pass: `process_file` returns `False` (retry later) with the
filesystem and audit store untouched. -/
theorem C7_not_ready_not_placed (currentYear : Nat) (skipSamples : Bool)
    (mtime : Option Int) (now grace : Int) (tvRoot movieRoot : String)
    (existingOf : String → List String) (copyFails : Bool) (freshIno : Nat)
    (st : PState) (path : String)
    (h1 : is_temporary_file (pyName path) = false)
    (h2 : is_video_file (pyName path) = true)
    (h3 : (skipSamples && containsL "sample".data (lowerL (pyName path).data)) = false)
    (h4 : is_recently_modified mtime now grace = true) :
    process_file currentYear skipSamples mtime now grace tvRoot movieRoot existingOf
        copyFails freshIno st path = (false, st)
    ∧ is_recently_modified none now grace = true := by
  refine ⟨?_, rfl⟩
  simp [process_file, h1, h2, h3, h4]

/-- Witness for C7: a missing file (`mtime = none`) is not placed. -/
theorem C7_witness :
    is_temporary_file (pyName "/w/Show.S01E02.mkv") = false
    ∧ is_video_file (pyName "/w/Show.S01E02.mkv") = true
    ∧ ((true && containsL "sample".data (lowerL (pyName "/w/Show.S01E02.mkv").data))
        = false)
    ∧ is_recently_modified none 1000 60 = true
    ∧ (process_file 2026 true none 1000 60 "/media/TV" "/media/Movies" (fun _ => [])
          false 9 stA "/w/Show.S01E02.mkv" = (false, stA)
        ∧ is_recently_modified none 1000 60 = true) :=
  ⟨rfl, rfl, rfl, rfl,
    C7_not_ready_not_placed 2026 true none 1000 60 "/media/TV" "/media/Movies"
      (fun _ => []) false 9 stA "/w/Show.S01E02.mkv" rfl rfl rfl rfl⟩

/-! ## TV detection well-formedness (C10) -/

/-- C10: whenever `detect_tv` returns `(title, season, episode)`, the
title is a non-empty string with no leading or trailing whitespace, and
season and episode are integers between 0 and 99 inclusive (they are `Nat`
here, so the lower bound is inherent). -/
theorem C10_detect_tv_wellformed (fn t : String) (s e : Nat)
    (h : detect_tv fn = some (t, s, e)) :
    t ≠ "" ∧ strippedL t.data ∧ s ≤ 99 ∧ e ≤ 99 := by
  simp only [detect_tv] at h
  have hmem := firstSome_eq_some h
  simp only [List.mem_cons, List.not_mem_nil, or_false] at hmem
  have shape :
      ∀ tryAt, (∀ l r, tryAt l = some r → r.1 ≤ 99 ∧ r.2 ≤ 99) →
        some (t, s, e) = tvAccept (runPat tryAt
          (sanitize_for_matching (pyStem fn)).data) →
        t ≠ "" ∧ strippedL t.data ∧ s ≤ 99 ∧ e ≤ 99 := by
    intro tryAt hb heq
    obtain ⟨⟨raw, hraw, ho⟩, hne⟩ := tvAccept_shape heq.symm
    have hb2 := runPat_bound hb ho
    exact ⟨hne, hraw ▸ normalize_tv_title_stripped _, hb2.1, hb2.2⟩
  rcases hmem with h1 | h1 | h1 | h1 | h1
  · exact shape tryP1 (fun _ _ => tryP1_bound) h1
  · exact shape tryP2 (fun _ _ => tryP2_bound) h1
  · exact shape tryP3 (fun _ _ => tryP3_bound) h1
  · exact shape tryP4 (fun _ _ => tryP4_bound) h1
  · exact shape tryP5 (fun _ _ => tryP5_bound) h1

/-- Witness for C10 at a concrete filename. -/
theorem C10_witness :
    detect_tv "Show.S01E02.720p.mkv" = some ("Show", 1, 2)
    ∧ ("Show" ≠ "" ∧ strippedL "Show".data ∧ 1 ≤ 99 ∧ 2 ≤ 99) :=
  ⟨rfl, C10_detect_tv_wellformed "Show.S01E02.720p.mkv" "Show" 1 2 rfl⟩

end JellyLink
